import Mathlib

/-!
# Verification of the bronya.js route construct against its specification

This file gives a shallow embedding, in Lean, of the parts of the
`bronya.js` repository that the specification's claims are about:

* the POSIX path arithmetic used by `resolveDirectoryTree` and `Api.init`
  (`path.join`, `path.relative`, `path.resolve`, `path.dirname`,
  `path.basename` from `node:path`, modelled for absolute POSIX paths);
* `decode` from `packages/api-construct/src/cli/commands/decode.ts`
  (base64 + compression sniffing of handler result bodies);
* the response half of `wrapExpressHandler`
  (`api-gateway-interop.ts`);
* `loadEndpoint` / `refreshRouter` / the file-watcher change handler of
  the Express development server (`dev.ts`);
* `normalizeRecord` and the lazily cached `headers` / `queryStringParameters`
  getters of `expressRequestToApiGatewayParams` (`request.ts`);
* the `mergedProps` override merge and the per-directory route record
  construction of `Api.init` (`api.ts`).

JavaScript strings are modelled as `List Char`, byte buffers as `List Nat`
(each entry a byte value).  External Node facilities that the embedded code
merely calls (zlib compression, the acorn parser behind `getNamedExports`,
`JSON.parse`, UTF-8 byte/string conversion) are oracle parameters: the
control flow proved about is exactly the repository's own.
-/

namespace Bronya

/-- A JavaScript string, modelled as its list of characters. -/
abbrev JsStr := List Char

/-- A byte buffer (Node `Buffer`), modelled as a list of byte values. -/
abbrev Bytes := List Nat

/-! ## Association-list primitives

JavaScript objects used as dictionaries (`this.routes`, `routers`,
`Object.fromEntries`) are modelled as association lists in which a key
occurs at most once; assignment replaces in place or appends. -/

/-- Model of `obj[k]`: first binding of the key, if any. -/
def assocGet {α β : Type} [DecidableEq α] (l : List (α × β)) (k : α) : Option β :=
  match l with
  | [] => none
  | e :: rest => if e.1 = k then some e.2 else assocGet rest k

/-- Model of `obj[k] = v`: replace the binding in place, or append it. -/
def assocSet {α β : Type} [DecidableEq α] (l : List (α × β)) (k : α) (v : β) :
    List (α × β) :=
  match l with
  | [] => [(k, v)]
  | e :: rest => if e.1 = k then (k, v) :: rest else e :: assocSet rest k v

theorem assocGet_assocSet_self {α β : Type} [DecidableEq α]
    (l : List (α × β)) (k : α) (v : β) : assocGet (assocSet l k v) k = some v := by
  induction l with
  | nil => simp [assocGet, assocSet]
  | cons e rest ih =>
    by_cases h : e.1 = k
    · simp [assocGet, assocSet, h]
    · simp [assocGet, assocSet, h, ih]

theorem assocGet_assocSet_ne {α β : Type} [DecidableEq α]
    (l : List (α × β)) (k k2 : α) (v : β) (h : k2 ≠ k) :
    assocGet (assocSet l k2 v) k = assocGet l k := by
  induction l with
  | nil => simp [assocGet, assocSet, h]
  | cons e rest ih =>
    by_cases he : e.1 = k2
    · simp [assocGet, assocSet, he, h, ih]
    · simp only [assocSet, if_neg he]
      by_cases hk : e.1 = k
      · simp [assocGet, hk]
      · simp [assocGet, hk, ih]

/-! ## POSIX path model (`node:path`)

The repository manipulates absolute POSIX paths with `path.join`,
`path.relative`, `path.resolve`, `path.dirname` and `path.basename`.
We model a path as its character list and work segment-wise: `splitSegs`
cuts at `/` discarding empty segments, `normSegs` applies the Node
normalization of `.` and `..` segments (with `..` clamped at the root,
as `path.resolve` and `path.join` do for absolute paths). -/

/-- Split a path into its non-empty segments. -/
def splitSegs (s : JsStr) : List JsStr :=
  (s.splitOn '/').filter (fun seg => seg ≠ [])

/-- Join segments with `/` separators (no leading slash). -/
def joinSegs (segs : List JsStr) : JsStr :=
  List.intercalate ['/'] segs

/-- Render an absolute path from its segments; `mkAbs [] = "/"`. -/
def mkAbs (segs : List JsStr) : JsStr :=
  '/' :: joinSegs segs

/-- One step of Node path normalization: `.` is dropped, `..` pops the
previous segment (clamping at the root), anything else is kept. -/
def normStep (acc : List JsStr) (seg : JsStr) : List JsStr :=
  if seg = ['.'] then acc
  else if seg = ['.', '.'] then acc.dropLast
  else acc ++ [seg]

/-- Node normalization of an absolute path's segment list. -/
def normSegs (segs : List JsStr) : List JsStr :=
  segs.foldl normStep []

/-- Length of the common prefix of two segment lists, as computed by
Node's `path.relative`. -/
def commonPrefixLen : List JsStr → List JsStr → Nat
  | a :: as, b :: bs => if a = b then commonPrefixLen as bs + 1 else 0
  | _, _ => 0

/-- Model of `path.relative(from, to)` for absolute POSIX paths: both
sides are normalized, the common prefix is dropped, and the remainder of
`from` becomes `..` segments. -/
def pathRelative (f t : JsStr) : JsStr :=
  let fs := normSegs (splitSegs f)
  let ts := normSegs (splitSegs t)
  let c := commonPrefixLen fs ts
  joinSegs (List.replicate (fs.length - c) ['.', '.'] ++ ts.drop c)

/-- Model of `path.join('/', rel)`: prepend the root and normalize.
`path.join('/', '')` is `'/'`. -/
def pathJoinRoot (rel : JsStr) : JsStr :=
  '/' :: joinSegs (normSegs (splitSegs rel))

/-- Normalize an absolute path. -/
def normalizeAbs (p : JsStr) : JsStr :=
  mkAbs (normSegs (splitSegs p))

/-- Model of `path.resolve(base, p)` with `base` absolute: an absolute
`p` is simply normalized, otherwise it is resolved against `base`. -/
def pathResolve (base p : JsStr) : JsStr :=
  if p.head? = some '/' then normalizeAbs p
  else normalizeAbs (base ++ '/' :: p)

/-- Model of `path.dirname` for normalized absolute paths. -/
def dirname (p : JsStr) : JsStr :=
  let segs := splitSegs p
  if segs.length ≤ 1 then ['/'] else mkAbs segs.dropLast

/-- Model of `path.basename`. -/
def basename (p : JsStr) : JsStr :=
  (splitSegs p).getLastD p

/-- A well-formed path segment: non-empty, does not contain the
separator, and is not one of the special segments `.` and `..`. -/
def GoodSeg (seg : JsStr) : Prop :=
  seg ≠ [] ∧ '/' ∉ seg ∧ seg ≠ ['.'] ∧ seg ≠ ['.', '.']

instance : DecidablePred GoodSeg := fun seg => by
  unfold GoodSeg; infer_instance

theorem splitSegs_mkAbs (segs : List JsStr)
    (h : ∀ seg ∈ segs, seg ≠ [] ∧ '/' ∉ seg) :
    splitSegs (mkAbs segs) = segs := by
  unfold splitSegs mkAbs joinSegs
  rcases eq_or_ne segs [] with rfl | hne
  · decide
  · rw [show (('/' :: List.intercalate ['/'] segs).splitOn '/') =
        [] :: (List.intercalate ['/'] segs).splitOn '/' by
      simp [List.splitOn, List.splitOnP_cons]]
    rw [List.splitOn_intercalate segs '/' (fun l hl => (h l hl).2) hne]
    simp only [List.filter_cons, decide_eq_true_eq]
    rw [if_neg (by simp)]
    exact List.filter_eq_self.mpr (fun a ha => by simpa using (h a ha).1)

theorem normSegs_append_acc (segs : List JsStr) :
    ∀ acc, (∀ seg ∈ segs, seg ≠ ['.'] ∧ seg ≠ ['.', '.']) →
      segs.foldl normStep acc = acc ++ segs := by
  induction segs with
  | nil => intro acc _; simp
  | cons s rest ih =>
    intro acc h
    have hs := h s (by simp)
    simp only [List.foldl_cons]
    rw [show normStep acc s = acc ++ [s] by simp [normStep, hs.1, hs.2]]
    rw [ih (acc ++ [s]) (fun seg hseg => h seg (by simp [hseg]))]
    simp

theorem normSegs_eq_self (segs : List JsStr)
    (h : ∀ seg ∈ segs, seg ≠ ['.'] ∧ seg ≠ ['.', '.']) :
    normSegs segs = segs := by
  simpa using normSegs_append_acc segs [] h

theorem commonPrefixLen_append (l m : List JsStr) :
    commonPrefixLen l (l ++ m) = l.length := by
  induction l with
  | nil => cases m <;> simp [commonPrefixLen]
  | cons a as ih => simp [commonPrefixLen, ih]

theorem normSegs_of_good (segs : List JsStr) (h : ∀ seg ∈ segs, GoodSeg seg) :
    normSegs segs = segs :=
  normSegs_eq_self segs (fun seg hseg => ⟨(h seg hseg).2.2.1, (h seg hseg).2.2.2⟩)

theorem splitSegs_mkAbs_good (segs : List JsStr) (h : ∀ seg ∈ segs, GoodSeg seg) :
    splitSegs (mkAbs segs) = segs :=
  splitSegs_mkAbs segs (fun seg hseg => ⟨(h seg hseg).1, (h seg hseg).2.1⟩)

theorem splitSegs_joinSegs (segs : List JsStr) (h : ∀ seg ∈ segs, GoodSeg seg) :
    splitSegs (joinSegs segs) = segs := by
  unfold splitSegs joinSegs
  rcases eq_or_ne segs [] with rfl | hne
  · decide
  · rw [List.splitOn_intercalate segs '/' (fun l hl => (h l hl).2.1) hne]
    exact List.filter_eq_self.mpr (fun a ha => by simpa using (h a ha).1)

/-! ## `resolveDirectoryTree.directoryToEndpoint` (directory-tree.ts)

Source:
`directoryToEndpoint = (directory) => path.join('/', path.relative(routesDirectory, directory))`
where `routesDirectory` is the resolved absolute routes root. -/

/-- `directoryToEndpoint` from `resolveDirectoryTree`: the endpoint URL of
an endpoint directory, derived from its position relative to the routes
root.  The same expression computes `endpoint` inside `Api.init`. -/
def directoryToEndpoint (routesDirectory directory : JsStr) : JsStr :=
  pathJoinRoot (pathRelative routesDirectory directory)

theorem pathRelative_beneath (rsegs ssegs : List JsStr)
    (hr : ∀ seg ∈ rsegs, GoodSeg seg) (hs : ∀ seg ∈ ssegs, GoodSeg seg) :
    pathRelative (mkAbs rsegs) (mkAbs (rsegs ++ ssegs)) = joinSegs ssegs := by
  have hrs : ∀ seg ∈ rsegs ++ ssegs, GoodSeg seg := by
    intro seg hseg
    rcases List.mem_append.mp hseg with h1 | h1
    · exact hr seg h1
    · exact hs seg h1
  simp only [pathRelative]
  rw [splitSegs_mkAbs_good rsegs hr, splitSegs_mkAbs_good (rsegs ++ ssegs) hrs,
    normSegs_of_good rsegs hr, normSegs_of_good (rsegs ++ ssegs) hrs,
    commonPrefixLen_append]
  simp [List.drop_left]

/-- C7: for every directory at or beneath the routes root,
`directoryToEndpoint` returns the directory's path relative to the routes
root prefixed with a single leading slash, and the routes root itself maps
to `/`.  Directories are rendered from well-formed segment lists; the
directory beneath the root carries the extra segments `ssegs`, and its
endpoint is `'/'` followed by those segments joined with `'/'`. -/
theorem directoryToEndpoint_relative_with_leading_slash
    (rsegs ssegs : List JsStr)
    (hr : ∀ seg ∈ rsegs, GoodSeg seg) (hs : ∀ seg ∈ ssegs, GoodSeg seg) :
    directoryToEndpoint (mkAbs rsegs) (mkAbs (rsegs ++ ssegs)) = '/' :: joinSegs ssegs ∧
    directoryToEndpoint (mkAbs rsegs) (mkAbs rsegs) = ['/'] := by
  have main : ∀ s2 : List JsStr, (∀ seg ∈ s2, GoodSeg seg) →
      directoryToEndpoint (mkAbs rsegs) (mkAbs (rsegs ++ s2)) = '/' :: joinSegs s2 := by
    intro s2 hs2
    simp only [directoryToEndpoint, pathJoinRoot]
    rw [pathRelative_beneath rsegs s2 hr hs2, splitSegs_joinSegs s2 hs2,
      normSegs_of_good s2 hs2]
  refine ⟨main ssegs hs, ?_⟩
  have h0 := main [] (by simp)
  simpa [joinSegs, List.intercalate] using h0

/-- Witness for C7 at a concrete routes root `/src` and directory
`/src/a/b`, whose endpoint is `/a/b`; the root maps to `/`. -/
theorem directoryToEndpoint_relative_with_leading_slash_witness :
    directoryToEndpoint (mkAbs [['s', 'r', 'c']])
        (mkAbs ([['s', 'r', 'c']] ++ [['a'], ['b']])) = '/' :: joinSegs [['a'], ['b']] ∧
    directoryToEndpoint (mkAbs [['s', 'r', 'c']]) (mkAbs [['s', 'r', 'c']]) = ['/'] :=
  directoryToEndpoint_relative_with_leading_slash [['s', 'r', 'c']] [['a'], ['b']]
    (by decide) (by decide)

/-! ## `decode` (cli/commands/decode.ts)

```
export function decode(encodedString: string): string {
  const buffer = Buffer.from(encodedString, 'base64')
  if (buffer.length < 8) { return buffer.toString() }
  if (buffer[0] == 0x1f && buffer[1] == 0x8b) { return zlib.gunzipSync(buffer).toString() }
  if (buffer[0] == 0x78) { return zlib.inflateSync(buffer).toString() }
  return buffer.toString()
}
```

`Buffer.from(s, 'base64')` is modelled concretely (`base64Decode`, the
standard alphabet with non-alphabet characters ignored, as Node does);
`zlib.gunzipSync` / `zlib.inflateSync` are oracles, returning either the
decompressed bytes or a thrown error (`Except`).  `Buffer.toString`
(UTF-8 decoding of bytes) is likewise an oracle. -/

/-- Value of one base64 alphabet character; non-alphabet characters
(including padding `=`) are ignored by Node's decoder. -/
def base64Val (c : Char) : Option Nat :=
  if 'A' ≤ c ∧ c ≤ 'Z' then some (c.toNat - 65)
  else if 'a' ≤ c ∧ c ≤ 'z' then some (c.toNat - 97 + 26)
  else if '0' ≤ c ∧ c ≤ '9' then some (c.toNat - 48 + 52)
  else if c = '+' then some 62
  else if c = '/' then some 63
  else none

/-- Reassemble 6-bit groups into bytes, 4 at a time; a trailing group of
2 or 3 characters contributes 1 or 2 bytes. -/
def base64Chunks : List Nat → Bytes
  | a :: b :: c :: d :: rest =>
    (a * 4 + b / 16) :: ((b % 16) * 16 + c / 4) :: ((c % 4) * 64 + d) :: base64Chunks rest
  | [a, b] => [a * 4 + b / 16]
  | [a, b, c] => [a * 4 + b / 16, (b % 16) * 16 + c / 4]
  | _ => []

/-- Model of `Buffer.from(s, 'base64')`. -/
def base64Decode (s : JsStr) : Bytes :=
  base64Chunks (s.filterMap base64Val)

/-- The `node:zlib` synchronous decompressors, as oracles: `.error`
models a thrown error (both throw on payloads that carry the right magic
number but are otherwise malformed). -/
structure NodeZlib where
  gunzipSync : Bytes → Except JsStr Bytes
  inflateSync : Bytes → Except JsStr Bytes

/-- The runtime facilities `decode` and the response translation lean on:
zlib and `Buffer.toString()` (UTF-8 decoding of a byte buffer). -/
structure NodeRuntime where
  zlib : NodeZlib
  utf8ToString : Bytes → JsStr

/-- The dispatch of `decode` on the decoded buffer (everything after
`const buffer = Buffer.from(encodedString, 'base64')`). -/
def decodeBuffer (rt : NodeRuntime) (buffer : Bytes) : Except JsStr JsStr :=
  if buffer.length < 8 then .ok (rt.utf8ToString buffer)
  else if buffer.getD 0 0 = 0x1f ∧ buffer.getD 1 0 = 0x8b then
    (rt.zlib.gunzipSync buffer).map rt.utf8ToString
  else if buffer.getD 0 0 = 0x78 then
    (rt.zlib.inflateSync buffer).map rt.utf8ToString
  else .ok (rt.utf8ToString buffer)

/-- `decode` from `decode.ts`: base64-decode, then sniff compression
magic numbers.  A `.error` result models the uncaught `zlib` exception. -/
def decode (rt : NodeRuntime) (encodedString : JsStr) : Except JsStr JsStr :=
  decodeBuffer rt (base64Decode encodedString)

/-- C2: `decode` dispatches in this order on every base64 input: a
decoded buffer shorter than 8 bytes is returned verbatim (as its string)
with no decompression attempted; otherwise the gzip magic `1F 8B` selects
gzip decompression; otherwise the zlib magic `78` selects inflation;
otherwise the bytes are returned as plaintext. -/
theorem decode_dispatch_order (rt : NodeRuntime) (s : JsStr) :
    ((base64Decode s).length < 8 →
      decode rt s = .ok (rt.utf8ToString (base64Decode s))) ∧
    (8 ≤ (base64Decode s).length →
      (base64Decode s).getD 0 0 = 0x1f → (base64Decode s).getD 1 0 = 0x8b →
      decode rt s = (rt.zlib.gunzipSync (base64Decode s)).map rt.utf8ToString) ∧
    (8 ≤ (base64Decode s).length →
      ¬((base64Decode s).getD 0 0 = 0x1f ∧ (base64Decode s).getD 1 0 = 0x8b) →
      (base64Decode s).getD 0 0 = 0x78 →
      decode rt s = (rt.zlib.inflateSync (base64Decode s)).map rt.utf8ToString) ∧
    (8 ≤ (base64Decode s).length →
      ¬((base64Decode s).getD 0 0 = 0x1f ∧ (base64Decode s).getD 1 0 = 0x8b) →
      ¬(base64Decode s).getD 0 0 = 0x78 →
      decode rt s = .ok (rt.utf8ToString (base64Decode s))) := by
  refine ⟨fun h => ?_, fun h h0 h1 => ?_, fun h hg h0 => ?_, fun h hg h0 => ?_⟩ <;>
    simp only [decode, decodeBuffer]
  · rw [if_pos h]
  · rw [if_neg (Nat.not_lt.mpr h), if_pos ⟨h0, h1⟩]
  · rw [if_neg (Nat.not_lt.mpr h), if_neg hg, if_pos h0]
  · rw [if_neg (Nat.not_lt.mpr h), if_neg hg, if_neg h0]

/-- A concrete stand-in for `Buffer.toString()`, correct on ASCII bytes;
used only to instantiate witnesses. -/
def asciiToString (bs : Bytes) : JsStr :=
  bs.map Char.ofNat

/-- A concrete runtime whose decompressors succeed with an empty result;
used only to instantiate witnesses (the dispatch itself never looks at
the oracle's output). -/
def stubRuntime : NodeRuntime :=
  ⟨⟨fun _ => .ok [], fun _ => .ok []⟩, asciiToString⟩

/-- A concrete runtime whose decompressors throw, modelling `zlib` on a
payload that carries a compression magic number but is malformed. -/
def throwingRuntime : NodeRuntime :=
  ⟨⟨fun _ => .error ['b', 'a', 'd'], fun _ => .error ['b', 'a', 'd']⟩, asciiToString⟩

/-- Base64 text decoding to `68 69` (ASCII `hi`, 2 bytes). -/
def shortB64 : JsStr := ['a', 'G', 'k', '=']

/-- Base64 text decoding to 8 bytes starting with the gzip magic `1F 8B`. -/
def gzipB64 : JsStr := ['H', '4', 's', 'A', 'A', 'A', 'A', 'A', 'A', 'A', 'A', '=']

/-- Base64 text decoding to 8 bytes starting with the zlib magic `78`. -/
def zlibB64 : JsStr := ['e', 'A', 'A', 'A', 'A', 'A', 'A', 'A', 'A', 'A', 'A', '=']

/-- Base64 text decoding to ASCII `ABCDEFGH` (8 bytes, no magic). -/
def plainB64 : JsStr := ['Q', 'U', 'J', 'D', 'R', 'E', 'V', 'G', 'R', '0', 'g', '=']

/-- Witness for C2: each of the four dispatch branches realized on a
concrete base64 input. -/
theorem decode_dispatch_order_witness :
    decode stubRuntime shortB64 = .ok (stubRuntime.utf8ToString (base64Decode shortB64)) ∧
    decode stubRuntime gzipB64 =
      (stubRuntime.zlib.gunzipSync (base64Decode gzipB64)).map stubRuntime.utf8ToString ∧
    decode stubRuntime zlibB64 =
      (stubRuntime.zlib.inflateSync (base64Decode zlibB64)).map stubRuntime.utf8ToString ∧
    decode stubRuntime plainB64 = .ok (stubRuntime.utf8ToString (base64Decode plainB64)) :=
  ⟨(decode_dispatch_order stubRuntime shortB64).1 (by decide),
   (decode_dispatch_order stubRuntime gzipB64).2.1 (by decide) (by decide) (by decide),
   (decode_dispatch_order stubRuntime zlibB64).2.2.1 (by decide) (by decide) (by decide),
   (decode_dispatch_order stubRuntime plainB64).2.2.2 (by decide) (by decide) (by decide)⟩

/-- C10: when the decoded buffer is at least 8 bytes and carries the gzip
(resp. zlib) magic number but the decompressor rejects it, `decode`
propagates the thrown error instead of falling through to return the
payload as plaintext. -/
theorem decode_throws_on_malformed_compressed (rt : NodeRuntime) (s e : JsStr) :
    (8 ≤ (base64Decode s).length →
      (base64Decode s).getD 0 0 = 0x1f → (base64Decode s).getD 1 0 = 0x8b →
      rt.zlib.gunzipSync (base64Decode s) = .error e →
      decode rt s = .error e) ∧
    (8 ≤ (base64Decode s).length →
      ¬((base64Decode s).getD 0 0 = 0x1f ∧ (base64Decode s).getD 1 0 = 0x8b) →
      (base64Decode s).getD 0 0 = 0x78 →
      rt.zlib.inflateSync (base64Decode s) = .error e →
      decode rt s = .error e) := by
  refine ⟨fun h h0 h1 hz => ?_, fun h hg h0 hz => ?_⟩ <;>
    simp only [decode, decodeBuffer]
  · rw [if_neg (Nat.not_lt.mpr h), if_pos ⟨h0, h1⟩, hz]; rfl
  · rw [if_neg (Nat.not_lt.mpr h), if_neg hg, if_pos h0, hz]; rfl

/-- Witness for C10: a malformed gzip payload and a malformed zlib
payload, both 8 bytes with the right magic, make `decode` throw. -/
theorem decode_throws_on_malformed_compressed_witness :
    decode throwingRuntime gzipB64 = .error ['b', 'a', 'd'] ∧
    decode throwingRuntime zlibB64 = .error ['b', 'a', 'd'] :=
  ⟨(decode_throws_on_malformed_compressed throwingRuntime gzipB64 ['b', 'a', 'd']).1
      (by decide) (by decide) (by decide) rfl,
   (decode_throws_on_malformed_compressed throwingRuntime zlibB64 ['b', 'a', 'd']).2
      (by decide) (by decide) (by decide) rfl⟩

/-! ## Response translation of `wrapExpressHandler` (api-gateway-interop.ts)

```
res.status(result.statusCode)
res.set(result.headers)
const body = result.isBase64Encoded ? decode(result.body) : result.body
try { res.send(JSON.parse(body)) } catch { res.send(result.body) }
```

The guard `if (!result) return` (handler produced no result) is upstream
of this fragment and not involved in the claims, which quantify over
present results.  `JSON.parse` is an oracle returning `some doc` on
success and `none` where the real parser throws.  Note the `catch`
branch sends `result.body` — the body as received, NOT the decoded
string `body`. -/

/-- The part of an `APIGatewayProxyResult` the response translation reads. -/
structure APIGatewayProxyResult where
  statusCode : Nat
  headers : List (JsStr × JsStr)
  body : JsStr
  isBase64Encoded : Bool
deriving DecidableEq

/-- What `res.send` was finally given: a parsed JSON document or raw text. -/
inductive SentBody (J : Type) where
  | json (doc : J)
  | text (s : JsStr)
deriving DecidableEq

/-- The Express response assembled by the wrapper. -/
structure ExpressResponse (J : Type) where
  status : Nat
  headers : List (JsStr × JsStr)
  sent : SentBody J
deriving DecidableEq

/-- `try { res.send(JSON.parse(body)) } catch { res.send(result.body) }`:
what is sent given the decoded `body` and the original `result.body`. -/
def sentOf {J : Type} (jsonParse : JsStr → Option J) (body originalBody : JsStr) :
    SentBody J :=
  match jsonParse body with
  | some doc => .json doc
  | none => .text originalBody

/-- The response half of `wrapExpressHandler`: decode the body when the
result declares it base64-encoded (an uncaught `decode` error rejects the
whole handler, modelled `.error`), then send the JSON parse of the decoded
body, falling back to `result.body` when parsing throws. -/
def wrapExpressHandlerResult (rt : NodeRuntime) {J : Type}
    (jsonParse : JsStr → Option J) (result : APIGatewayProxyResult) :
    Except JsStr (ExpressResponse J) :=
  match (if result.isBase64Encoded then decode rt result.body else .ok result.body) with
  | .error e => .error e
  | .ok body => .ok ⟨result.statusCode, result.headers, sentOf jsonParse body result.body⟩

/-- `JSON.parse` oracle that always throws; agrees with the real parser
on every non-JSON text used in the witnesses (such as `hi`). -/
def noJson : JsStr → Option Unit := fun _ => none

/-- Counterexample for C3: a base64-encoded result whose decoded body is
the short non-JSON text `hi`.  The translation decodes it to `hi`, the
JSON parse fails, and the code then sends the ORIGINAL `result.body`
(`aGk=`, still base64), not the decoded string the claim promises. -/
theorem wrapExpressHandler_sends_undecoded_body_on_parse_failure :
    decode stubRuntime shortB64 = .ok ['h', 'i'] ∧
    wrapExpressHandlerResult stubRuntime noJson ⟨200, [], shortB64, true⟩ =
      .ok ⟨200, [], .text shortB64⟩ ∧
    shortB64 ≠ ['h', 'i'] :=
  ⟨rfl, rfl, by decide⟩

/-- C3 as amended: for a result with `isBase64Encoded` set, a decoded
body shorter than 8 bytes is used verbatim and a gzip body is used
decompressed; the decoded body is JSON-parsed and sent as a JSON document
on success, while on parse failure the original (still encoded)
`result.body` is sent. -/
theorem wrapExpressHandler_base64_response (rt : NodeRuntime) {J : Type}
    (jsonParse : JsStr → Option J) (result : APIGatewayProxyResult)
    (hb : result.isBase64Encoded = true) :
    ((base64Decode result.body).length < 8 →
      wrapExpressHandlerResult rt jsonParse result =
        .ok ⟨result.statusCode, result.headers,
          sentOf jsonParse (rt.utf8ToString (base64Decode result.body)) result.body⟩) ∧
    (∀ plain, 8 ≤ (base64Decode result.body).length →
      (base64Decode result.body).getD 0 0 = 0x1f →
      (base64Decode result.body).getD 1 0 = 0x8b →
      rt.zlib.gunzipSync (base64Decode result.body) = .ok plain →
      wrapExpressHandlerResult rt jsonParse result =
        .ok ⟨result.statusCode, result.headers,
          sentOf jsonParse (rt.utf8ToString plain) result.body⟩) := by
  constructor
  · intro h
    simp only [wrapExpressHandlerResult, hb, if_pos, decode, decodeBuffer]
    rw [if_pos h]
  · intro plain h h0 h1 hz
    simp only [wrapExpressHandlerResult, hb, if_pos, decode, decodeBuffer]
    rw [if_neg (Nat.not_lt.mpr h), if_pos ⟨h0, h1⟩, hz]
    rfl

/-- Witness for the amended C3: the short branch on the `hi` payload and
the gzip branch on a runtime whose decompressor yields the empty string. -/
theorem wrapExpressHandler_base64_response_witness :
    wrapExpressHandlerResult stubRuntime noJson ⟨200, [], shortB64, true⟩ =
      .ok ⟨200, [], sentOf noJson (stubRuntime.utf8ToString (base64Decode shortB64)) shortB64⟩ ∧
    wrapExpressHandlerResult stubRuntime noJson ⟨200, [], gzipB64, true⟩ =
      .ok ⟨200, [], sentOf noJson (stubRuntime.utf8ToString []) gzipB64⟩ :=
  ⟨(wrapExpressHandler_base64_response stubRuntime noJson ⟨200, [], shortB64, true⟩ rfl).1
      (by decide),
   (wrapExpressHandler_base64_response stubRuntime noJson ⟨200, [], gzipB64, true⟩ rfl).2
      [] (by decide) (by decide) (by decide) rfl⟩

/-! ## `loadEndpoint` handler registration (cli/commands/dev.ts)

```
const HttpMethodsToExpress = { DELETE: 'delete', GET: 'get', HEAD: 'head',
  PATCH: 'patch', POST: 'post', PUT: 'put', OPTIONS: 'options', ANY: 'use' }
function isMethod(method) { return method in HttpMethodsToExpress }
function apiGatewayPathToExpressPath(p) { return p.replace(/{([^}]+)}/g, ':$1') }
...
Object.entries(handlerFunctions)
  .filter((entry) => isMethod(entry[0]))
  .forEach(([httpMethod, handler]) => {
    const expressMethod = HttpMethodsToExpress[httpMethod]
    const endpoint = apiGatewayPathToExpressPath(apiRouteInfo.endpoint)
    apiRouteRouter[expressMethod](endpoint, wrapExpressHandler(handler))
  })
```
-/

/-- The verb translation table. -/
def HttpMethodsToExpress : List (JsStr × JsStr) :=
  [ (['D', 'E', 'L', 'E', 'T', 'E'], ['d', 'e', 'l', 'e', 't', 'e']),
    (['G', 'E', 'T'], ['g', 'e', 't']),
    (['H', 'E', 'A', 'D'], ['h', 'e', 'a', 'd']),
    (['P', 'A', 'T', 'C', 'H'], ['p', 'a', 't', 'c', 'h']),
    (['P', 'O', 'S', 'T'], ['p', 'o', 's', 't']),
    (['P', 'U', 'T'], ['p', 'u', 't']),
    (['O', 'P', 'T', 'I', 'O', 'N', 'S'], ['o', 'p', 't', 'i', 'o', 'n', 's']),
    (['A', 'N', 'Y'], ['u', 's', 'e']) ]

/-- `method in HttpMethodsToExpress`. -/
def isMethod (method : JsStr) : Bool :=
  (assocGet HttpMethodsToExpress method).isSome

/-- Split after an opening brace: the characters up to the next closing
brace (the captured name) and the remainder after it; `none` when no
closing brace follows (the regex then does not match). -/
def braceSplit : List Char → Option (List Char × List Char)
  | [] => none
  | c :: rest =>
    if c = '}' then some ([], rest)
    else (braceSplit rest).map (fun pr => (c :: pr.1, pr.2))

/-- Fuelled scanner behind `replaceBraceParams`; the fuel is the input
length, which the scan never exhausts since every step consumes at least
one character. -/
def replaceBraceGo : Nat → List Char → List Char
  | 0, l => l
  | _ + 1, [] => []
  | fuel + 1, c :: rest =>
    if c = '{' then
      match braceSplit rest with
      | some (name, tail) =>
        if name = [] then c :: replaceBraceGo fuel rest
        else ':' :: name ++ replaceBraceGo fuel tail
      | none => c :: replaceBraceGo fuel rest
    else c :: replaceBraceGo fuel rest

/-- Character-level model of `p.replace(/{([^}]+)}/g, ':$1')`: each
`{name}` group with a non-empty name becomes `:name`. -/
def replaceBraceParams (l : List Char) : List Char :=
  replaceBraceGo l.length l

/-- `apiGatewayPathToExpressPath`: API Gateway `{name}` parameters become
Express `:name` parameters. -/
def apiGatewayPathToExpressPath (apiGatewayPath : JsStr) : JsStr :=
  replaceBraceParams apiGatewayPath

/-- One registration `router[method](path, handler)` performed by
`loadEndpoint`: the Express method name, the Express path, the handler. -/
def loadEndpointRegistrations {H : Type} (handlerFunctions : List (JsStr × H))
    (endpoint : JsStr) : List (JsStr × JsStr × H) :=
  (handlerFunctions.filter (fun e => isMethod e.1)).map
    (fun e => ((assocGet HttpMethodsToExpress e.1).getD [],
      apiGatewayPathToExpressPath endpoint, e.2))

/-- Counterexample for C4: a module exporting only `GET` yields exactly
one registration, for the Express method `get`; no `head` responder is
synthesized by the loader.  (Answering HEAD requests through a GET route
is left to the Express router itself, outside this repository.) -/
theorem loadEndpoint_get_only_registers_no_head :
    loadEndpointRegistrations [((['G', 'E', 'T'] : JsStr), (0 : Nat))] ['/', 'x'] =
      [(['g', 'e', 't'], ['/', 'x'], 0)] ∧
    ∀ r ∈ loadEndpointRegistrations [((['G', 'E', 'T'] : JsStr), (0 : Nat))] ['/', 'x'],
      r.1 ≠ ['h', 'e', 'a', 'd'] := by
  constructor
  · rfl
  · decide

theorem assocGet_methods_eq_head (m : JsStr)
    (hsome : (assocGet HttpMethodsToExpress m).isSome = true)
    (hm : (assocGet HttpMethodsToExpress m).getD [] = ['h', 'e', 'a', 'd']) :
    m = ['H', 'E', 'A', 'D'] := by
  simp only [HttpMethodsToExpress, assocGet] at hm hsome
  split_ifs at hm hsome <;> simp_all

/-- C4 as amended: the loader registers handlers for exactly the
recognized exported methods.  A module exporting `GET` and not `HEAD`
yields a `get` registration forwarding to the exported handler and no
`head` registration at all; serving HEAD requests through the GET handler
(with the body suppressed) is performed by the underlying Express router,
not by this loader. -/
theorem loadEndpoint_no_head_synthesis {H : Type}
    (handlerFunctions : List (JsStr × H)) (endpoint : JsStr) (h : H)
    (hget : ((['G', 'E', 'T'] : JsStr), h) ∈ handlerFunctions)
    (hnohead : ∀ hh : H, ((['H', 'E', 'A', 'D'] : JsStr), hh) ∉ handlerFunctions) :
    (['g', 'e', 't'], apiGatewayPathToExpressPath endpoint, h) ∈
      loadEndpointRegistrations handlerFunctions endpoint ∧
    ∀ p : JsStr, ∀ hh : H, (['h', 'e', 'a', 'd'], p, hh) ∉
      loadEndpointRegistrations handlerFunctions endpoint := by
  constructor
  · refine List.mem_map.mpr ⟨(['G', 'E', 'T'], h), List.mem_filter.mpr ⟨hget, ?_⟩, ?_⟩
    · show isMethod (['G', 'E', 'T'] : JsStr) = true
      decide
    · rfl
  · intro p hh hmem
    obtain ⟨e, hef, heq⟩ := List.mem_map.mp hmem
    obtain ⟨hel, hmeth⟩ := List.mem_filter.mp hef
    have h1 : (assocGet HttpMethodsToExpress e.1).getD [] = ['h', 'e', 'a', 'd'] :=
      congrArg Prod.fst heq
    have h2 : e.1 = ['H', 'E', 'A', 'D'] :=
      assocGet_methods_eq_head e.1 (by simpa [isMethod] using hmeth) h1
    exact hnohead e.2 (by rw [← h2]; exact hel)

/-- Witness for the amended C4 on a concrete GET-only module. -/
theorem loadEndpoint_no_head_synthesis_witness :
    (['g', 'e', 't'], apiGatewayPathToExpressPath ['/', 'x'], (0 : Nat)) ∈
      loadEndpointRegistrations [((['G', 'E', 'T'] : JsStr), (0 : Nat))] ['/', 'x'] ∧
    ∀ p : JsStr, ∀ hh : Nat, (['h', 'e', 'a', 'd'], p, hh) ∉
      loadEndpointRegistrations [((['G', 'E', 'T'] : JsStr), (0 : Nat))] ['/', 'x'] :=
  loadEndpoint_no_head_synthesis [((['G', 'E', 'T'] : JsStr), (0 : Nat))] ['/', 'x'] 0
    (by simp)
    (fun hh hmem => by
      simp only [List.mem_singleton, Prod.mk.injEq] at hmem
      exact absurd hmem.1 (by decide))

/-! ## Live router management of the development server (cli/commands/dev.ts)

The server keeps `routers`, a dictionary from route directory to a
per-route Express `Router`, and a mutable global `router`.
`loadEndpoint` replaces one route's entry with a brand-new `Router`
carrying that route's registrations; `refreshRouter` replaces the global
router with a fresh one that `use`s each existing per-route router in
`apiRoutes` order; the watcher's change handler takes
`path.dirname(fileChanged)`, looks it up in `api.routes`, and runs
`buildApiRoute` → `loadEndpoint` → `refreshRouter` for that single route
(or only logs an error when the lookup fails).

Router objects are modelled with an identity (`id`, drawn from a counter)
so that "the same dispatcher object is reused" is expressible.  The
`modules` oracle gives the exports obtained by importing a route's
freshly built artifact (`none` models `internalHandlers == null`, which
leaves the new empty router in place).  `builds` records each
`buildApiRoute` call. -/

/-- The fields of a `RouteInfo` the dev server's router management reads. -/
structure RouteInfoM where
  directory : JsStr
  endpoint : JsStr
deriving DecidableEq

/-- A per-route Express `Router`: an object identity plus its
registrations. -/
structure ExpressRouter (H : Type) where
  id : Nat
  registrations : List (JsStr × JsStr × H)
deriving DecidableEq

/-- The mutable state of the development server's router management. -/
structure DevServerState (H : Type) where
  nextId : Nat
  routers : List (JsStr × ExpressRouter H)
  globalRouter : List (ExpressRouter H)
  builds : List JsStr
deriving DecidableEq

/-- `buildApiRoute(apiRouteInfo)`: the build is external; the state
records which route directory was (re)built. -/
def buildApiRouteState {H : Type} (info : RouteInfoM) (s : DevServerState H) :
    DevServerState H :=
  { s with builds := s.builds ++ [info.directory] }

/-- `loadEndpoint(apiRouteInfo)`: install a brand-new router for this one
route, then register every recognized exported handler on it. -/
def loadEndpointState {H : Type} (modules : JsStr → Option (List (JsStr × H)))
    (info : RouteInfoM) (s : DevServerState H) : DevServerState H :=
  let regs := match modules info.directory with
    | none => []
    | some handlerFunctions => loadEndpointRegistrations handlerFunctions info.endpoint
  { s with
    nextId := s.nextId + 1
    routers := assocSet s.routers info.directory ⟨s.nextId, regs⟩ }

/-- `refreshRouter()`: replace the global router with a fresh one that
`use`s the current per-route router of every route, in `apiRoutes`
order. -/
def refreshRouterState {H : Type} (apiRoutes : List RouteInfoM) (s : DevServerState H) :
    DevServerState H :=
  { s with globalRouter := apiRoutes.filterMap (fun i => assocGet s.routers i.directory) }

/-- The watcher's change handler: resolve the changed file's directory,
look the route up, and rebuild → reload → refresh for that route only. -/
def watcherOnChange {H : Type} (apiRoutes : List RouteInfoM)
    (modules : JsStr → Option (List (JsStr × H))) (s : DevServerState H)
    (fileChanged : JsStr) : DevServerState H :=
  let endpointDir := dirname fileChanged
  match apiRoutes.find? (fun i => decide (i.directory = endpointDir)) with
  | none => s
  | some info =>
    refreshRouterState apiRoutes (loadEndpointState modules info (buildApiRouteState info s))

/-- C6: a file change inside one route's directory rebuilds and reloads
only that route: at most the changed directory is built, the dispatcher
object of every other directory is left untouched in `routers`, and when
the change matches a route the global router is replaced by a freshly
assembled table that reuses each (unchanged) per-route router object.
In particular an untouched route's router — its identity, registrations
and hence methods set and served behavior — is identical before and
after. -/
theorem watcherOnChange_isolates_other_routes {H : Type} (apiRoutes : List RouteInfoM)
    (modules : JsStr → Option (List (JsStr × H))) (s : DevServerState H)
    (fileChanged : JsStr) :
    ((watcherOnChange apiRoutes modules s fileChanged).builds = s.builds ∨
      (watcherOnChange apiRoutes modules s fileChanged).builds =
        s.builds ++ [dirname fileChanged]) ∧
    (∀ d : JsStr, d ≠ dirname fileChanged →
      assocGet (watcherOnChange apiRoutes modules s fileChanged).routers d =
        assocGet s.routers d) ∧
    (∀ info : RouteInfoM,
      apiRoutes.find? (fun i => decide (i.directory = dirname fileChanged)) = some info →
      (watcherOnChange apiRoutes modules s fileChanged).globalRouter =
        apiRoutes.filterMap
          (fun i => assocGet (watcherOnChange apiRoutes modules s fileChanged).routers i.directory)) := by
  cases hf : apiRoutes.find? (fun i => decide (i.directory = dirname fileChanged)) with
  | none =>
    refine ⟨Or.inl ?_, fun d _ => ?_, fun info hinfo => ?_⟩
    · simp [watcherOnChange, hf]
    · simp [watcherOnChange, hf]
    · exact Option.noConfusion hinfo
  | some info =>
    have hdir : info.directory = dirname fileChanged := by
      have := List.find?_some hf
      simpa using this
    refine ⟨Or.inr ?_, fun d hd => ?_, fun info2 _ => ?_⟩
    · simp [watcherOnChange, hf, refreshRouterState, loadEndpointState,
        buildApiRouteState, hdir]
    · simp only [watcherOnChange, hf, refreshRouterState, loadEndpointState,
        buildApiRouteState]
      have hne : info.directory ≠ d := by
        rw [hdir]
        exact fun heq => hd heq.symm
      exact assocGet_assocSet_ne s.routers d info.directory _ hne
    · simp [watcherOnChange, hf, refreshRouterState]

/-- Concrete two-route setup for the C6 witness: routes `/a` and `/b`,
each loaded with a GET handler. -/
def sampleRoutes : List RouteInfoM :=
  [⟨['/', 'a'], ['/', 'a']⟩, ⟨['/', 'b'], ['/', 'b']⟩]

/-- Exports oracle for the sample: every route's module exports one GET
handler (handlers numbered by `Nat`). -/
def sampleModules : JsStr → Option (List (JsStr × Nat)) :=
  fun _ => some [(['G', 'E', 'T'], 0)]

/-- A dev-server state in which both sample routes have been loaded. -/
def sampleState : DevServerState Nat :=
  refreshRouterState sampleRoutes
    (loadEndpointState sampleModules ⟨['/', 'b'], ['/', 'b']⟩
      (loadEndpointState sampleModules ⟨['/', 'a'], ['/', 'a']⟩
        ⟨0, [], [], []⟩))

/-- Witness for C6: changing `/a/index.ts` leaves route `/b`'s dispatcher
entry untouched and republishes the fresh table from the routers map. -/
theorem watcherOnChange_isolates_other_routes_witness :
    assocGet (watcherOnChange sampleRoutes sampleModules sampleState
        ['/', 'a', '/', 'i', 'n', 'd', 'e', 'x', '.', 't', 's']).routers ['/', 'b'] =
      assocGet sampleState.routers ['/', 'b'] ∧
    (watcherOnChange sampleRoutes sampleModules sampleState
        ['/', 'a', '/', 'i', 'n', 'd', 'e', 'x', '.', 't', 's']).globalRouter =
      sampleRoutes.filterMap
        (fun i => assocGet (watcherOnChange sampleRoutes sampleModules sampleState
          ['/', 'a', '/', 'i', 'n', 'd', 'e', 'x', '.', 't', 's']).routers i.directory) :=
  ⟨(watcherOnChange_isolates_other_routes sampleRoutes sampleModules sampleState
      ['/', 'a', '/', 'i', 'n', 'd', 'e', 'x', '.', 't', 's']).2.1 ['/', 'b'] (by decide),
   (watcherOnChange_isolates_other_routes sampleRoutes sampleModules sampleState
      ['/', 'a', '/', 'i', 'n', 'd', 'e', 'x', '.', 't', 's']).2.2
      ⟨['/', 'a'], ['/', 'a']⟩ (by decide)⟩

/-! ## `normalizeRecord` and the lazy event getters (request.ts)

```
function entryValueNotNull(v) { return v != null }
function normalizeRecord(headers) {
  const headerEntries = Object.entries(headers ?? {})
    .filter(entryValueNotNull)
    .map(([k, v]) => [k, Array.isArray(v) ? (v.length === 1 ? v[0] : v) : v])
  return Object.fromEntries(headerEntries)
}
...
let headers; let query
const event = {
  get headers() { headers ??= normalizeRecord(req.headers); return headers },
  get queryStringParameters() { query ??= normalizeRecord(req.query); return query },
  ...
}
```
-/

/-- A value in an incoming header/query record: a string, an array of
strings, or null/undefined. -/
inductive JsVal where
  | vstr (s : JsStr)
  | varr (xs : List JsStr)
  | vnull
deriving DecidableEq

/-- The filter guard of `normalizeRecord`.  NOTE: in the source it tests
`v != null` where `v` is the `[key, value]` ENTRY PAIR produced by
`Object.entries`, which is never null — so the filter keeps every entry,
including null-valued ones. -/
def entryValueNotNull (_ : JsStr × JsVal) : Bool :=
  true

/-- `Array.isArray(v) ? (v.length === 1 ? v[0] : v) : v`. -/
def collapseEntryValue : JsVal → JsVal
  | .varr xs => if xs.length = 1 then .vstr (xs.getD 0 []) else .varr xs
  | v => v

/-- `Object.fromEntries`: later entries overwrite earlier ones. -/
def objectFromEntries {β : Type} (l : List (JsStr × β)) : List (JsStr × β) :=
  l.foldl (fun acc e => assocSet acc e.1 e.2) []

/-- The value the LAST entry of an entry list gives a key (the value
`Object.fromEntries` keeps). -/
def lastLookup {β : Type} (l : List (JsStr × β)) (k : JsStr) : Option β :=
  assocGet l.reverse k

/-- `normalizeRecord` from request.ts. -/
def normalizeRecord (headers : List (JsStr × JsVal)) : List (JsStr × JsVal) :=
  objectFromEntries
    ((headers.filter entryValueNotNull).map (fun e => (e.1, collapseEntryValue e.2)))

theorem assocGet_append {β : Type} (l1 l2 : List (JsStr × β)) (k : JsStr) :
    assocGet (l1 ++ l2) k = (assocGet l1 k).or (assocGet l2 k) := by
  induction l1 with
  | nil => simp [assocGet]
  | cons e rest ih =>
    by_cases h : e.1 = k
    · simp [assocGet, h]
    · simp [assocGet, h, ih]

theorem assocGet_assocSet_or {β : Type} (l : List (JsStr × β)) (k k2 : JsStr) (v : β) :
    assocGet (assocSet l k2 v) k = (assocGet [(k2, v)] k).or (assocGet l k) := by
  by_cases h : k2 = k
  · subst h
    simp [assocGet_assocSet_self, assocGet]
  · simp [assocGet_assocSet_ne l k k2 v h, assocGet, h]

theorem foldl_assocSet_lookup {β : Type} (l : List (JsStr × β)) :
    ∀ (acc : List (JsStr × β)) (k : JsStr),
      assocGet (l.foldl (fun a e => assocSet a e.1 e.2) acc) k =
        (lastLookup l k).or (assocGet acc k) := by
  induction l with
  | nil => intro acc k; simp [lastLookup, assocGet]
  | cons e t ih =>
    intro acc k
    simp only [List.foldl_cons]
    rw [ih (assocSet acc e.1 e.2) k, assocGet_assocSet_or]
    have hrev : lastLookup (e :: t) k = (lastLookup t k).or (assocGet [e] k) := by
      simp only [lastLookup, List.reverse_cons]
      rw [assocGet_append]
    rw [hrev, Option.or_assoc]

theorem objectFromEntries_lookup {β : Type} (l : List (JsStr × β)) (k : JsStr) :
    assocGet (objectFromEntries l) k = lastLookup l k := by
  rw [objectFromEntries, foldl_assocSet_lookup l [] k]
  simp [assocGet]

theorem assocGet_map_value {β γ : Type} (g : β → γ) (l : List (JsStr × β)) (k : JsStr) :
    assocGet (l.map (fun e => (e.1, g e.2))) k = (assocGet l k).map g := by
  induction l with
  | nil => simp [assocGet]
  | cons e rest ih =>
    by_cases h : e.1 = k
    · simp [assocGet, h]
    · simp [assocGet, h, ih]

theorem normalizeRecord_lookup (r : List (JsStr × JsVal)) (k : JsStr) :
    assocGet (normalizeRecord r) k = (lastLookup r k).map collapseEntryValue := by
  rw [normalizeRecord, objectFromEntries_lookup]
  have hfilter : r.filter entryValueNotNull = r :=
    List.filter_eq_self.mpr (fun a _ => rfl)
  rw [hfilter, lastLookup, lastLookup, ← List.map_reverse, assocGet_map_value]

/-- The closure state of the lazily cached `headers` / `query` getters,
instrumented with a count of how many times each normalization actually
ran. -/
structure EventGetterCache where
  headersCache : Option (List (JsStr × JsVal))
  queryCache : Option (List (JsStr × JsVal))
  headersComputed : Nat
  queryComputed : Nat
deriving DecidableEq

/-- The state before the event's first getter access. -/
def initialEventCache : EventGetterCache :=
  ⟨none, none, 0, 0⟩

/-- `get headers() { headers ??= normalizeRecord(req.headers); return headers }`. -/
def getEventHeaders (reqHeaders : List (JsStr × JsVal)) (c : EventGetterCache) :
    List (JsStr × JsVal) × EventGetterCache :=
  match c.headersCache with
  | some h => (h, c)
  | none =>
    let h := normalizeRecord reqHeaders
    (h, { c with headersCache := some h, headersComputed := c.headersComputed + 1 })

/-- `get queryStringParameters() { query ??= normalizeRecord(req.query); return query }`. -/
def getEventQuery (reqQuery : List (JsStr × JsVal)) (c : EventGetterCache) :
    List (JsStr × JsVal) × EventGetterCache :=
  match c.queryCache with
  | some q => (q, c)
  | none =>
    let q := normalizeRecord reqQuery
    (q, { c with queryCache := some q, queryComputed := c.queryComputed + 1 })

/-- C8: headers and query parameters are computed lazily and cached —
starting from a fresh event the first access runs the normalization
exactly once and every further access returns the identical object with
the state unchanged — and normalization collapses each 1-element array
value to its single element while keeping multi-element values as
arrays. -/
theorem event_getters_lazy_cached_and_collapsing
    (reqHeaders reqQuery r : List (JsStr × JsVal)) (k : JsStr) :
    (getEventHeaders reqHeaders (getEventHeaders reqHeaders initialEventCache).2 =
        getEventHeaders reqHeaders initialEventCache ∧
      (getEventHeaders reqHeaders initialEventCache).1 = normalizeRecord reqHeaders ∧
      (getEventHeaders reqHeaders initialEventCache).2.headersComputed = 1) ∧
    (getEventQuery reqQuery (getEventQuery reqQuery initialEventCache).2 =
        getEventQuery reqQuery initialEventCache ∧
      (getEventQuery reqQuery initialEventCache).1 = normalizeRecord reqQuery ∧
      (getEventQuery reqQuery initialEventCache).2.queryComputed = 1) ∧
    (∀ x : JsStr, lastLookup r k = some (.varr [x]) →
      assocGet (normalizeRecord r) k = some (.vstr x)) ∧
    (∀ xs : List JsStr, lastLookup r k = some (.varr xs) → xs.length ≠ 1 →
      assocGet (normalizeRecord r) k = some (.varr xs)) ∧
    (∀ s : JsStr, lastLookup r k = some (.vstr s) →
      assocGet (normalizeRecord r) k = some (.vstr s)) := by
  refine ⟨⟨?_, ?_, ?_⟩, ⟨?_, ?_, ?_⟩, fun x hx => ?_, fun xs hxs hlen => ?_, fun s hs => ?_⟩
  · simp [getEventHeaders, initialEventCache]
  · simp [getEventHeaders, initialEventCache]
  · simp [getEventHeaders, initialEventCache]
  · simp [getEventQuery, initialEventCache]
  · simp [getEventQuery, initialEventCache]
  · simp [getEventQuery, initialEventCache]
  · rw [normalizeRecord_lookup, hx]
    simp [collapseEntryValue]
  · rw [normalizeRecord_lookup, hxs]
    simp [collapseEntryValue, hlen]
  · rw [normalizeRecord_lookup, hs]
    simp [collapseEntryValue]

/-- Witness for C8 on a concrete record: key `h` has the 1-element array
`[v]` (collapsed to `v`), key `q` has a 2-element array (kept), key `p`
has a plain string (kept); the getters cache on first access. -/
theorem event_getters_lazy_cached_and_collapsing_witness :
    (getEventHeaders [((['h'] : JsStr), JsVal.varr [['v']])]
        (getEventHeaders [((['h'] : JsStr), JsVal.varr [['v']])] initialEventCache).2 =
      getEventHeaders [((['h'] : JsStr), JsVal.varr [['v']])] initialEventCache) ∧
    assocGet (normalizeRecord [((['h'] : JsStr), JsVal.varr [['v']])]) ['h'] =
      some (.vstr ['v']) ∧
    assocGet (normalizeRecord [((['q'] : JsStr), JsVal.varr [['v'], ['w']])]) ['q'] =
      some (.varr [['v'], ['w']]) :=
  ⟨(event_getters_lazy_cached_and_collapsing [(['h'], JsVal.varr [['v']])] [] [] []).1.1,
   (event_getters_lazy_cached_and_collapsing [] [] [(['h'], JsVal.varr [['v']])] ['h']).2.2.1
      ['v'] (by decide),
   (event_getters_lazy_cached_and_collapsing [] [] [(['q'], JsVal.varr [['v'], ['w']])]
      ['q']).2.2.2.1 [['v'], ['w']] (by decide) (by decide)⟩

/-! ## The override merge of `Api.init` (api.ts)

```
const mergedProps = {
  ...apiOverride?.config,
  ...this.config,
  esbuild: { ...apiOverride?.config?.esbuild, ...this.config.esbuild },
  development: { ...apiOverride?.config?.development, ...this.config.development },
  constructs: { ...apiOverride?.config?.constructs, ...this.config.constructs },
  environment: { ...apiOverride?.config?.environment, ...this.config.environment },
}
```

`apiOverride?.config` is the per-directory `ApiPropsOverride` payload and
`this.config` the root `Api`'s configuration.  JavaScript objects are
modelled as field lists in which a later binding for a key overrides an
earlier one (exactly the object-literal/spread semantics above), so a
spread is list append and reading a key takes its last binding. -/

/-- A JavaScript configuration value: number, string, or nested object. -/
inductive ConfigVal where
  | cnum (n : Int)
  | cstr (s : JsStr)
  | cobj (fields : List (JsStr × ConfigVal))

/-- A JavaScript object as an ordered field list; later bindings win. -/
abbrev ConfigObj := List (JsStr × ConfigVal)

/-- Read a key from an object literal: the last binding wins. -/
def jsGet (o : ConfigObj) (k : JsStr) : Option ConfigVal :=
  assocGet o.reverse k

/-- `{...maybeObj?.k}` contributes the fields of `maybeObj.k` when it is
an object, and nothing when the base or the field is missing. -/
def spreadField (o : Option ConfigObj) (k : JsStr) : ConfigObj :=
  match o with
  | none => []
  | some fields =>
    match jsGet fields k with
    | some (.cobj f) => f
    | _ => []

/-- The key `esbuild`. -/
def kEsbuild : JsStr := ['e', 's', 'b', 'u', 'i', 'l', 'd']

/-- The key `development`. -/
def kDevelopment : JsStr := ['d', 'e', 'v', 'e', 'l', 'o', 'p', 'm', 'e', 'n', 't']

/-- The key `constructs`. -/
def kConstructs : JsStr := ['c', 'o', 'n', 's', 't', 'r', 'u', 'c', 't', 's']

/-- The key `environment`. -/
def kEnvironment : JsStr := ['e', 'n', 'v', 'i', 'r', 'o', 'n', 'm', 'e', 'n', 't']

/-- `mergedProps` from `Api.init`: spread the per-directory override
first, then the root config, then the four mapping-typed fields merged
key-by-key (override's keys first, root's keys second). -/
def mergedProps (overrideConfig : Option ConfigObj) (config : ConfigObj) : ConfigObj :=
  overrideConfig.getD [] ++ config ++
    [ (kEsbuild, .cobj (spreadField overrideConfig kEsbuild ++
        spreadField (some config) kEsbuild)),
      (kDevelopment, .cobj (spreadField overrideConfig kDevelopment ++
        spreadField (some config) kDevelopment)),
      (kConstructs, .cobj (spreadField overrideConfig kConstructs ++
        spreadField (some config) kConstructs)),
      (kEnvironment, .cobj (spreadField overrideConfig kEnvironment ++
        spreadField (some config) kEnvironment)) ]

/-- C1, evaluated at the claim's own example: with the root (`this.config`,
the configuration inherited from the parent) being `{a: 1, b: 2}` and the
closer per-directory override being `{b: 3}`, `mergedProps` yields
`b = 2` — the ROOT config wins every field, because `...this.config` is
spread after `...apiOverride?.config` — where the claim (and the
`ApiPropsOverride` doc comment, and the sibling implementation that
spreads `...overrides` last) requires the closer override to win with
`b = 3`.  The environment half of the example does hold: disjoint keys
`{X: "1"}` and `{Y: "2"}` are merged key-by-key into the environment
object. -/
theorem mergedProps_root_wins_over_closer_override :
    jsGet (mergedProps (some [(['b'], .cnum 3)])
        [(['a'], .cnum 1), (['b'], .cnum 2)]) ['b'] = some (.cnum 2) ∧
    jsGet (mergedProps (some [(['b'], .cnum 3)])
        [(['a'], .cnum 1), (['b'], .cnum 2)]) ['a'] = some (.cnum 1) ∧
    jsGet (mergedProps (some [(kEnvironment, .cobj [(['Y'], .cstr ['2'])])])
        [(kEnvironment, .cobj [(['X'], .cstr ['1'])])]) kEnvironment =
      some (.cobj [(['Y'], .cstr ['2']), (['X'], .cstr ['1'])]) ∧
    jsGet [(['Y'], ConfigVal.cstr ['2']), (['X'], ConfigVal.cstr ['1'])] ['X'] =
      some (.cstr ['1']) ∧
    jsGet [(['Y'], ConfigVal.cstr ['2']), (['X'], ConfigVal.cstr ['1'])] ['Y'] =
      some (.cstr ['2']) :=
  ⟨rfl, rfl, rfl, rfl, rfl⟩

/-! ## Route records built by `Api.init` (api.ts)

For each project directory (no local config file case, lines 204–244):

```
const entryPoint = path.resolve(directory, this.config.entryPoint ?? 'src/index.ts')
const exitPoint = this.config.exitPoint ?? path.basename(entryPoint)
const methods = getNamedExports(fs.readFileSync(entryPoint, 'utf-8'))
const outDirectory = path.resolve(directory, this.config.outDirectory ?? 'dist')
const endpoint = path.join('/', path.relative(path.resolve(this.root, apiRoutesDirectory), directory))
const routeInfo = { directory, endpoint, entryPoint, exitPoint, methods, outDirectory, ... }
this.routes[directory] = routeInfo
if (this.config.routes != null) { ...aliases with the same endpoint value... }
```

`getNamedExports` (the acorn-based static analysis of the entry file's
named exports) together with the file read is the oracle
`getNamedExportsOf : path → exported names`.  Note `methods` is filled in
right here, during discovery — before any build or load.  No check of any
kind compares endpoints across routes: `Api.init` cannot fail because of
a duplicate endpoint. -/

/-- The root `Api` configuration fields used per route. -/
structure InitConfigModel where
  entryPoint : Option JsStr
  exitPoint : Option JsStr
  outDirectory : Option JsStr
  routes : Option (List (JsStr × JsStr))

/-- `'src/index.ts'`. -/
def defaultEntryPoint : JsStr :=
  ['s', 'r', 'c', '/', 'i', 'n', 'd', 'e', 'x', '.', 't', 's']

/-- `'dist'`. -/
def defaultOutDirectoryName : JsStr := ['d', 'i', 's', 't']

/-- The `RouteInfo` fields produced per directory. -/
structure RouteInfoRecord where
  directory : JsStr
  endpoint : JsStr
  entryPoint : JsStr
  exitPoint : JsStr
  outDirectory : JsStr
  methods : List JsStr
deriving DecidableEq

/-- The route record `Api.init` builds for one project directory. -/
def initRouteRecord (apiRoutesDirectory : JsStr) (cfg : InitConfigModel)
    (getNamedExportsOf : JsStr → List JsStr) (directory : JsStr) : RouteInfoRecord :=
  let entryPoint := pathResolve directory (cfg.entryPoint.getD defaultEntryPoint)
  let exitPoint := cfg.exitPoint.getD (basename entryPoint)
  let methods := getNamedExportsOf entryPoint
  let outDirectory := pathResolve directory (cfg.outDirectory.getD defaultOutDirectoryName)
  let endpoint := pathJoinRoot (pathRelative apiRoutesDirectory directory)
  ⟨directory, endpoint, entryPoint, exitPoint, outDirectory, methods⟩

/-- Processing of one project directory: store the record under its
directory, then add the explicitly routed aliases whose value equals this
endpoint. -/
def initRouteStep (apiRoutesDirectory : JsStr) (cfg : InitConfigModel)
    (getNamedExportsOf : JsStr → List JsStr)
    (routes : List (JsStr × RouteInfoRecord)) (directory : JsStr) :
    List (JsStr × RouteInfoRecord) :=
  let r := initRouteRecord apiRoutesDirectory cfg getNamedExportsOf directory
  let routes1 := assocSet routes directory r
  match cfg.routes with
  | none => routes1
  | some explicitRoutes =>
    (explicitRoutes.filter (fun e => decide (e.2 = r.endpoint))).foldl
      (fun acc e => assocSet acc e.1 { r with endpoint := e.2 }) routes1

/-- `Api.init`: build the route map over all discovered project
directories.  The function is total — there is no error outcome. -/
def initRoutes (apiRoutesDirectory : JsStr) (cfg : InitConfigModel)
    (getNamedExportsOf : JsStr → List JsStr) (projects : List JsStr) :
    List (JsStr × RouteInfoRecord) :=
  projects.foldl (initRouteStep apiRoutesDirectory cfg getNamedExportsOf) []

theorem initRouteStep_of_no_explicit_routes (ard : JsStr) (cfg : InitConfigModel)
    (gx : JsStr → List JsStr) (routes : List (JsStr × RouteInfoRecord)) (d : JsStr)
    (hroutes : cfg.routes = none) :
    initRouteStep ard cfg gx routes d = assocSet routes d (initRouteRecord ard cfg gx d) := by
  simp [initRouteStep, hroutes]

theorem initRoutes_foldl_not_mem (ard : JsStr) (cfg : InitConfigModel)
    (gx : JsStr → List JsStr) (hroutes : cfg.routes = none) (d : JsStr) :
    ∀ (ps : List JsStr) (acc : List (JsStr × RouteInfoRecord)), d ∉ ps →
      assocGet (ps.foldl (initRouteStep ard cfg gx) acc) d = assocGet acc d := by
  intro ps
  induction ps with
  | nil => intro acc _; rfl
  | cons p t ih =>
    intro acc hd
    simp only [List.foldl_cons]
    rw [ih _ (fun h => hd (by simp [h])),
      initRouteStep_of_no_explicit_routes ard cfg gx acc p hroutes,
      assocGet_assocSet_ne acc d p _ (fun h => hd (by simp [h]))]

/-- Helper shared by the `Api.init` claims: after `initRoutes`, every
discovered directory is mapped to exactly the record `initRouteRecord`
builds for it. -/
theorem initRoutes_lookup_of_mem (ard : JsStr) (cfg : InitConfigModel)
    (gx : JsStr → List JsStr) (projects : List JsStr) (d : JsStr)
    (hmem : d ∈ projects) (hnodup : projects.Nodup) (hroutes : cfg.routes = none) :
    assocGet (initRoutes ard cfg gx projects) d =
      some (initRouteRecord ard cfg gx d) := by
  have main : ∀ (ps : List JsStr) (acc : List (JsStr × RouteInfoRecord)),
      d ∈ ps → ps.Nodup →
      assocGet (ps.foldl (initRouteStep ard cfg gx) acc) d =
        some (initRouteRecord ard cfg gx d) := by
    intro ps
    induction ps with
    | nil => intro acc h _; exact absurd h (by simp)
    | cons p t ih =>
      intro acc hmem2 hnodup2
      simp only [List.foldl_cons]
      rcases eq_or_ne d p with rfl | hne
      · rw [initRoutes_foldl_not_mem ard cfg gx hroutes d t _
            (by simpa using (List.nodup_cons.mp hnodup2).1),
          initRouteStep_of_no_explicit_routes ard cfg gx acc d hroutes,
          assocGet_assocSet_self]
      · exact ih _ (by
          rcases List.mem_cons.mp hmem2 with h | h
          · exact absurd h hne
          · exact h) (List.nodup_cons.mp hnodup2).2
  exact main projects [] hmem hnodup

/-- C9 counterexample input: the static-analysis oracle for an entry file
whose source is `export const GET = ...` — `getNamedExports` returns
`["GET"]`. -/
def sampleExports : JsStr → List JsStr :=
  fun _ => [['G', 'E', 'T']]

/-- A root config with every per-route setting left to its default. -/
def sampleInitConfig : InitConfigModel :=
  ⟨none, none, none, none⟩

/-- Counterexample for C9: immediately after `Api.init` — before any
build or load has ever run — the discovered route's `methods` is already
`["GET"]`, populated by the static analysis of the entry source, not
left empty until the first successful build+load. -/
theorem initRoutes_methods_nonempty_before_any_build :
    (assocGet (initRoutes ['/', 's'] sampleInitConfig sampleExports
        [['/', 's', '/', 'a']]) ['/', 's', '/', 'a']).map (fun r => r.methods) =
      some [['G', 'E', 'T']] ∧
    some [(['G', 'E', 'T'] : JsStr)] ≠ some ([] : List JsStr) := by
  exact ⟨rfl, by decide⟩

/-- C9 as amended: `methods` is populated during discovery itself —
`Api.init` stores, for every discovered directory, a record whose
`methods` is the result of statically analyzing the entry file's named
exports (`getNamedExports` over `fs.readFileSync(entryPoint)`), before
any build or load happens. -/
theorem initRoutes_methods_from_static_analysis (ard : JsStr) (cfg : InitConfigModel)
    (gx : JsStr → List JsStr) (projects : List JsStr) (d : JsStr)
    (hmem : d ∈ projects) (hnodup : projects.Nodup) (hroutes : cfg.routes = none) :
    assocGet (initRoutes ard cfg gx projects) d =
      some (initRouteRecord ard cfg gx d) ∧
    (initRouteRecord ard cfg gx d).methods =
      gx (pathResolve d (cfg.entryPoint.getD defaultEntryPoint)) :=
  ⟨initRoutes_lookup_of_mem ard cfg gx projects d hmem hnodup hroutes, rfl⟩

/-- Witness for the amended C9 at a concrete one-route project. -/
theorem initRoutes_methods_from_static_analysis_witness :
    assocGet (initRoutes ['/', 's'] sampleInitConfig sampleExports
        [['/', 's', '/', 'a']]) ['/', 's', '/', 'a'] =
      some (initRouteRecord ['/', 's'] sampleInitConfig sampleExports
        ['/', 's', '/', 'a']) ∧
    (initRouteRecord ['/', 's'] sampleInitConfig sampleExports
        ['/', 's', '/', 'a']).methods =
      sampleExports (pathResolve ['/', 's', '/', 'a']
        (sampleInitConfig.entryPoint.getD defaultEntryPoint)) :=
  initRoutes_methods_from_static_analysis ['/', 's'] sampleInitConfig sampleExports
    [['/', 's', '/', 'a']] ['/', 's', '/', 'a'] (by decide) (by decide) rfl

/-- First colliding directory: `/s/a`. -/
def collideDirA : JsStr := ['/', 's', '/', 'a']

/-- Second colliding directory: `/s/b/../a`, a distinct path string that
normalizes to the same endpoint `/a`. -/
def collideDirB : JsStr := ['/', 's', '/', 'b', '/', '.', '.', '/', 'a']

/-- Counterexample for C5: two distinct route directories resolving to
the same derived endpoint `/a`.  `Api.init` completes normally — it has
no error outcome at all and performs no duplicate-endpoint comparison —
storing BOTH records (keyed by directory) with equal `endpoint` fields,
instead of raising the startup configuration error the claim requires. -/
theorem initRoutes_accepts_duplicate_endpoints :
    collideDirA ≠ collideDirB ∧
    directoryToEndpoint ['/', 's'] collideDirA = directoryToEndpoint ['/', 's'] collideDirB ∧
    assocGet (initRoutes ['/', 's'] sampleInitConfig sampleExports
        [collideDirA, collideDirB]) collideDirA =
      some (initRouteRecord ['/', 's'] sampleInitConfig sampleExports collideDirA) ∧
    assocGet (initRoutes ['/', 's'] sampleInitConfig sampleExports
        [collideDirA, collideDirB]) collideDirB =
      some (initRouteRecord ['/', 's'] sampleInitConfig sampleExports collideDirB) ∧
    (initRouteRecord ['/', 's'] sampleInitConfig sampleExports collideDirA).endpoint =
      (initRouteRecord ['/', 's'] sampleInitConfig sampleExports collideDirB).endpoint := by
  exact ⟨by decide, rfl, rfl, rfl, rfl⟩

/-- C5 as amended: `Api.init` performs no duplicate-endpoint detection —
it always completes (the function has no failure outcome), and whenever
two distinct discovered directories resolve to the same derived endpoint
both route records are silently kept in the map under their directory
keys, with equal `endpoint` fields; the collision surfaces only later as
one route shadowing the other when the routers are registered. -/
theorem initRoutes_keeps_both_colliding_routes (ard : JsStr) (cfg : InitConfigModel)
    (gx : JsStr → List JsStr) (projects : List JsStr) (d1 d2 : JsStr)
    (h1 : d1 ∈ projects) (h2 : d2 ∈ projects) (hne : d1 ≠ d2)
    (hnodup : projects.Nodup) (hroutes : cfg.routes = none)
    (hcollide : directoryToEndpoint ard d1 = directoryToEndpoint ard d2) :
    assocGet (initRoutes ard cfg gx projects) d1 =
      some (initRouteRecord ard cfg gx d1) ∧
    assocGet (initRoutes ard cfg gx projects) d2 =
      some (initRouteRecord ard cfg gx d2) ∧
    (initRouteRecord ard cfg gx d1).endpoint = (initRouteRecord ard cfg gx d2).endpoint :=
  ⟨initRoutes_lookup_of_mem ard cfg gx projects d1 h1 hnodup hroutes,
   initRoutes_lookup_of_mem ard cfg gx projects d2 h2 hnodup hroutes,
   hcollide⟩

/-- Witness for the amended C5 at the concrete colliding pair. -/
theorem initRoutes_keeps_both_colliding_routes_witness :
    assocGet (initRoutes ['/', 's'] sampleInitConfig sampleExports
        [collideDirA, collideDirB]) collideDirA =
      some (initRouteRecord ['/', 's'] sampleInitConfig sampleExports collideDirA) ∧
    assocGet (initRoutes ['/', 's'] sampleInitConfig sampleExports
        [collideDirA, collideDirB]) collideDirB =
      some (initRouteRecord ['/', 's'] sampleInitConfig sampleExports collideDirB) ∧
    (initRouteRecord ['/', 's'] sampleInitConfig sampleExports collideDirA).endpoint =
      (initRouteRecord ['/', 's'] sampleInitConfig sampleExports collideDirB).endpoint :=
  initRoutes_keeps_both_colliding_routes ['/', 's'] sampleInitConfig sampleExports
    [collideDirA, collideDirB] collideDirA collideDirB (by decide) (by decide)
    (by decide) (by decide) rfl rfl

end Bronya
